import Mathlib

/-!
Verification development for the `web-scraper-analytics` repository
(`src/scraper.py`, class `WebScraper`).

The Python code is shallowly embedded as executable Lean definitions:
pure helper methods (`extract_text`, `extract_links`, `extract_metadata`)
become Lean functions; the SQLite store becomes an explicit `DB` state
that writes thread through; Python exceptions become `Except`/sum types.
External library behaviour (HTTP transport via `requests`, HTML parsing
via BeautifulSoup, URL resolution via `urllib`) is the environment: it is
passed in as data (a `FetchOutcome` per URL, a parsed `Page`, abstract
`urljoin`/`netloc` functions), while everything the repository itself
computes is translated line by line from the source.
-/

namespace Scraper

/-! ## Text cleaning (`WebScraper.extract_text`, src/scraper.py lines 80-90)

The Python code is

```
text = soup.get_text()
lines = (line.strip() for line in text.splitlines())
chunks = (phrase.strip() for line in lines for phrase in line.split("  "))
text = ' '.join(chunk for chunk in chunks if chunk)
```

We model the string returned by `soup.get_text()` (after the script/style
nodes have been decomposed) as the input string, and the cleaning pass on
it character-list by character-list.  Line boundaries are modelled as
`\n`, `\r` and `\r\n` (the common ASCII cases of `str.splitlines`), and
`str.strip()` as trimming the ASCII whitespace characters. -/

/-- The ASCII whitespace characters stripped by Python `str.strip()`. -/
def isPySpace (c : Char) : Bool :=
  c = ' ' || c = '\t' || c = '\n' || c = '\r' || c = '\x0b' || c = '\x0c'

/-- Python `str.lstrip()` on a character list. -/
def stripL (l : List Char) : List Char := l.dropWhile isPySpace

/-- Python `str.strip()` on a character list: drop whitespace on both ends. -/
def pyStrip (l : List Char) : List Char :=
  ((stripL l).reverse.dropWhile isPySpace).reverse

/-- Worker for `pySplitlines`: accumulates the current line (reversed). -/
def splitlinesGo (cur : List Char) : List Char → List (List Char)
  | [] => [cur.reverse]
  | '\r' :: '\n' :: rest =>
    cur.reverse :: (if rest.isEmpty then [] else splitlinesGo [] rest)
  | '\n' :: rest =>
    cur.reverse :: (if rest.isEmpty then [] else splitlinesGo [] rest)
  | '\r' :: rest =>
    cur.reverse :: (if rest.isEmpty then [] else splitlinesGo [] rest)
  | c :: rest => splitlinesGo (c :: cur) rest

/-- Python `str.splitlines()` (for the `\n`, `\r`, `\r\n` boundaries):
no trailing empty line, and `"".splitlines() = []`. -/
def pySplitlines (l : List Char) : List (List Char) :=
  if l.isEmpty then [] else splitlinesGo [] l

/-- Prepend a character to the first fragment of a fragment list. -/
def consHead (c : Char) : List (List Char) → List (List Char)
  | [] => [[c]]
  | f :: fs => (c :: f) :: fs

/-- Python `line.split("  ")`: greedy left-to-right split on the exact
two-character separator of two spaces. -/
def pySplit2 : List Char → List (List Char)
  | [] => [[]]
  | [c] => [[c]]
  | c1 :: c2 :: rest =>
    if c1 = ' ' ∧ c2 = ' ' then [] :: pySplit2 rest
    else consHead c1 (pySplit2 (c2 :: rest))

theorem dropWhile_length_le (p : Char → Bool) :
    ∀ l : List Char, (l.dropWhile p).length ≤ l.length
  | [] => Nat.le_refl _
  | c :: rest => by
    rw [List.dropWhile_cons]
    split
    · exact Nat.le_succ_of_le (dropWhile_length_le p rest)
    · exact Nat.le_refl _

/-- Splitting on maximal runs of two or more spaces — the literal reading
of the specification words "re-split each line on double-space runs". -/
def pySplitRuns : List Char → List (List Char)
  | [] => [[]]
  | [c] => [[c]]
  | c1 :: c2 :: rest =>
    if c1 = ' ' ∧ c2 = ' ' then
      [] :: pySplitRuns (rest.dropWhile (fun c => c = ' '))
    else consHead c1 (pySplitRuns (c2 :: rest))
termination_by l => l.length
decreasing_by
· simp only [List.length_cons]
  have h := dropWhile_length_le (fun c => decide (c = ' ')) rest
  omega
· simp only [List.length_cons]
  omega

/-- Strip every fragment and drop the empty survivors — the
`(chunk for chunk in chunks if chunk)` part of `extract_text`. -/
def cleanChunks (cs : List (List Char)) : List (List Char) :=
  (cs.map pyStrip).filter (fun c => !c.isEmpty)

/-- The whole `extract_text` cleaning pass, from the source code:
splitlines, strip each line, split each line on `"  "`, strip each
fragment, drop empties, join with single spaces. -/
def cleanText (t : List Char) : List Char :=
  List.intercalate [' ']
    (cleanChunks (((pySplitlines t).map pyStrip).flatMap pySplit2))

/-- The two-pass reference algorithm as the specification words it:
identical, except lines are re-split on double-space *runs*. -/
def cleanTextSpec (t : List Char) : List Char :=
  List.intercalate [' ']
    (cleanChunks (((pySplitlines t).map pyStrip).flatMap pySplitRuns))

/-- `WebScraper.extract_text`, on the text of the (script/style-stripped)
parsed page. -/
def extract_text (text : String) : String := String.mk (cleanText text.data)

/-- The specification's reference description of `extract_text`. -/
def extractTextSpec (text : String) : String := String.mk (cleanTextSpec text.data)

/-! ## Link extraction (`WebScraper.extract_links`, src/scraper.py lines 92-99)

```
links = []
for link in soup.find_all('a', href=True):
    url = urljoin(base_url, link[href])
    if urlparse(url).netloc == urlparse(base_url).netloc:
        links.append(url)
return list(set(links))
```

`soup.find_all('a', href=True)` is modelled as the list of `href`
attribute values of the page's anchors that have one.  `urljoin` and
`urlparse(..).netloc` are `urllib` library functions, external to the
repository, so they are parameters of the embedding.  `list(set(links))`
returns the collected URLs with duplicates removed in an arbitrary
order; it is modelled order-insensitively by `List.dedup`. -/

/-- `WebScraper.extract_links`, parametrised by the `urllib` resolution
function `urljoin` and host extractor `netloc`. -/
def extract_links (urljoin : String → String → String) (netloc : String → String)
    (anchors : List String) (base_url : String) : List String :=
  (anchors.foldl
    (fun links href =>
      let url := urljoin base_url href
      if netloc url == netloc base_url then links ++ [url] else links)
    []).dedup

/-- Host extractor for the specification's concrete link example.
Modelled from the spec: `urlparse(u).netloc` (standard URI parsing) on
the three absolute URLs appearing in the example. -/
def exNetloc : String → String := fun u =>
  if u = "https://ex.com" then "ex.com"
  else if u = "https://ex.com/a" then "ex.com"
  else if u = "https://other.com/b" then "other.com"
  else ""

/-- URL resolution for the specification's concrete link example.
Modelled from the spec: standard URI resolution resolves an absolute
href to itself, which covers every href in the example. -/
def exUrljoin : String → String → String := fun _base href => href

/-! ## Metadata extraction (`WebScraper.extract_metadata`, src/scraper.py lines 101-128)

A `<meta>` element is modelled by its three relevant attributes, each
`Option String` (`none` = attribute absent, so that `meta.get('x', '')`
is `Option.getD "" `).  The Python dict is modelled as an
insertion-ordered association list, with Python's assignment semantics:
updating an existing key keeps its position, a new key is appended. -/

structure MetaTag where
  name : Option String
  property : Option String
  content : Option String
deriving DecidableEq

/-- `meta.get(attr, '').lower()` (character-wise ASCII lowering). -/
def pyLower (s : Option String) : String :=
  String.mk ((s.getD "").data.map Char.toLower)

/-- `meta.get(attr, '')`. -/
def attrDefault (s : Option String) : String := s.getD ""

/-- Python `d[k] = v` on an insertion-ordered dict. -/
def dictSet (d : List (String × String)) (k v : String) : List (String × String) :=
  if d.any (fun p => p.1 == k) then d.map (fun p => if p.1 == k then (k, v) else p)
  else d ++ [(k, v)]

/-- Python `d[k]` (first entry with key `k`), with `""` when the key is
absent. -/
def dictGet : List (String × String) → String → String
  | [], _ => ""
  | p :: d, k => if p.1 == k then p.2 else dictGet d k

/-- The initial `metadata` dict of `extract_metadata`: the five fixed
keys, each mapped to the empty string. -/
def initMetadata : List (String × String) :=
  [("description", ""), ("keywords", ""), ("author", ""),
   ("og_title", ""), ("og_description", "")]

/-- One iteration of the loop over the meta elements of the page:
the `if/elif` chain of src/scraper.py lines 117-126. -/
def metaStep (d : List (String × String)) (m : MetaTag) : List (String × String) :=
  let name := pyLower m.name
  let prop := pyLower m.property
  let content := attrDefault m.content
  if name == "description" then dictSet d "description" content
  else if name == "keywords" then dictSet d "keywords" content
  else if name == "author" then dictSet d "author" content
  else if prop == "og:title" then dictSet d "og_title" content
  else if prop == "og:description" then dictSet d "og_description" content
  else d

/-- `WebScraper.extract_metadata` on the page's `<meta>` elements. -/
def extract_metadata (metas : List MetaTag) : List (String × String) :=
  metas.foldl metaStep initMetadata

/-- The content of the last element of `metas` satisfying `p` (empty
string when none does) — the specification's "last matching element
wins, unmatched keys default to empty string". -/
def lastMatchContent (p : MetaTag → Bool) (metas : List MetaTag) : String :=
  metas.foldl (fun acc m => if p m then attrDefault m.content else acc) ""

/-- The claim's per-key matching predicate for the name-based keys. -/
def nameMatches (key : String) (m : MetaTag) : Bool := pyLower m.name == key

/-- The claim's per-key matching predicate for the `og:` keys. -/
def ogMatches (okey : String) (m : MetaTag) : Bool := pyLower m.property == okey

/-- The meta element's `name` matches one of the three name-based keys,
so the `elif` chain never reaches the `property` cases. -/
def nameIsReserved (m : MetaTag) : Bool :=
  pyLower m.name == "description" || pyLower m.name == "keywords" ||
    pyLower m.name == "author"

/-- The amended matching predicate for the `og:` keys: the element's
`property` matches and its `name` does not match a name-based key. -/
def ogMatchesAmended (okey : String) (m : MetaTag) : Bool :=
  !nameIsReserved m && pyLower m.property == okey

/-- Concrete metas refuting the per-key "last matching element wins"
reading: the second element matches `og:title` by `property` but its
`name` is `description`, so the code never updates `og_title` with it. -/
def metasCounterexample : List MetaTag :=
  [⟨none, some "og:title", some "A"⟩,
   ⟨some "description", some "og:title", some "B"⟩]

/-! ## Page pipeline (`WebScraper.fetch_page` lines 69-78, `WebScraper.scrape_page` lines 130-156)

The HTTP transport (`requests.Session.get`) and the HTML parser
(BeautifulSoup) are external: one scrape attempt's environment is a
`FetchOutcome` — either a raised `requests.RequestException`
(network error or timeout), or a response with its final status code
and a body whose parse/extraction either yields a `Page` or raises
(`Except.error`, absorbed by the `except` clause of `scrape_page`).
`Response.raise_for_status` raises exactly for status codes in
[400, 600), per the `requests` library. -/

/-- A parsed page, at the granularity the extractors consume:
`titleTag = none` models a page with no `<title>` element, and
`titleTag = some t` a `<title>` whose `.string` is `t` (possibly `None`
= `none` when the element has no single string child). -/
structure Page where
  titleTag : Option (Option String)
  text : String
  anchors : List String
  metas : List MetaTag

/-- The environment of one `scrape_page` call. -/
inductive FetchOutcome where
  | exn : FetchOutcome
  | response (statusCode : Nat) (body : Except Unit Page) : FetchOutcome

inductive Status where
  | success : Status
  | failed : Status
deriving DecidableEq

/-- `requests.Response.raise_for_status()`: raises `HTTPError` exactly
for 4xx/5xx status codes. -/
def raise_for_status (statusCode : Nat) : Except Unit Unit :=
  if 400 ≤ statusCode ∧ statusCode < 600 then Except.error () else Except.ok ()

/-- `WebScraper.fetch_page`: propagates a transport exception, raises on
an HTTP error status, and otherwise returns the response. -/
def fetch_page (outcome : FetchOutcome) : Except Unit (Nat × Except Unit Page) :=
  match outcome with
  | FetchOutcome.exn => Except.error ()
  | FetchOutcome.response st body =>
    match raise_for_status st with
    | Except.error _ => Except.error ()
    | Except.ok _ => Except.ok (st, body)

/-- The in-memory scraped record (the dict built by `scrape_page`).
`title : Option String` because `soup.title.string` can be Python
`None`; the failure record has the empty-string title `some ""`. -/
structure Record where
  url : String
  title : Option String
  content : String
  links : List String
  metadata : List (String × String)
  status : Status
deriving DecidableEq

/-- The record returned by the `except` clause of `scrape_page`
(src/scraper.py lines 149-156): note `metadata` is the *empty* dict. -/
def failedRecord (url : String) : Record :=
  { url := url, title := some "", content := "", links := [],
    metadata := [], status := Status.failed }

/-- The success record built in the `try` block of `scrape_page`. -/
def buildRecord (urljoin : String → String → String) (netloc : String → String)
    (url : String) (page : Page) : Record :=
  { url := url
    title := match page.titleTag with
      | none => some ""
      | some t => t
    content := extract_text page.text
    links := extract_links urljoin netloc page.anchors url
    metadata := extract_metadata page.metas
    status := Status.success }

/-- `WebScraper.scrape_page`: the whole `try` body (fetch, parse,
extract) with every exception converted to `failedRecord url`. -/
def scrape_page (urljoin : String → String → String) (netloc : String → String)
    (url : String) (outcome : FetchOutcome) : Record :=
  match fetch_page outcome with
  | Except.error _ => failedRecord url
  | Except.ok (_, Except.error _) => failedRecord url
  | Except.ok (_, Except.ok page) => buildRecord urljoin netloc url page

/-- The failure paths of one page scrape: a transport exception or
timeout, an HTTP error status (the statuses `raise_for_status` raises
for), or an exception while parsing/extracting the body. -/
def isFailureOutcome : FetchOutcome → Bool
  | FetchOutcome.exn => true
  | FetchOutcome.response _ (Except.error _) => true
  | FetchOutcome.response st (Except.ok _) => decide (400 ≤ st ∧ st < 600)

/-! ## Store and batch runner (src/scraper.py lines 36-67, 158-213)

The SQLite database is the explicit state: the `scraped_data` table as a
list of `Row`s (in insertion order; the `id`/`timestamp` columns, being
server-assigned bookkeeping, are not part of the claims) and the
`scraping_stats` table as a list of `StatsRow`s.  `datetime.now()` and
`time.time()` are the clock environment: the session id and the measured
duration enter `scrape_multiple` as parameters.  `json.dumps(metadata)`
stores a faithful image of the dict, modelled by storing the association
list itself. -/

/-- One row of the `scraped_data` table (the columns written by
`save_to_db`). -/
structure Row where
  url : String
  title : Option String
  content : String
  metadataJson : List (String × String)
  status : Status
deriving DecidableEq

/-- One row of the `scraping_stats` table. -/
structure StatsRow where
  session_id : String
  total_pages : Nat
  successful : Nat
  failed : Nat
  duration : Rat
deriving DecidableEq

/-- The two tables of the SQLite database. -/
structure DB where
  scraped : List Row
  stats : List StatsRow
deriving DecidableEq

/-- The columns `save_to_db` inserts for a record. -/
def toRow (d : Record) : Row :=
  ⟨d.url, d.title, d.content, d.metadata, d.status⟩

/-- `WebScraper.save_to_db`: one `INSERT INTO scraped_data` (append). -/
def save_to_db (db : DB) (d : Record) : DB :=
  ⟨db.scraped ++ [toRow d], db.stats⟩

/-- One iteration of the `for i, url in enumerate(urls, 1)` loop of
`scrape_multiple`: scrape, append to results, persist, tally. -/
def scrapeStep (urljoin : String → String → String) (netloc : String → String)
    (env : String → FetchOutcome) :
    List Record × DB × Nat × Nat → String → List Record × DB × Nat × Nat
  | (results, db, s, f), url =>
    let data := scrape_page urljoin netloc url (env url)
    if data.status = Status.success then
      (results ++ [data], save_to_db db data, s + 1, f)
    else
      (results ++ [data], save_to_db db data, s, f + 1)

/-- `WebScraper.scrape_multiple`: the loop over the URLs followed by one
`INSERT INTO scraping_stats`.  `session_id` is the value of
`datetime.now()` formatted as `%Y%m%d_%H%M%S` at the start of the call and
`duration` the measured elapsed wall-clock time; the inter-request
`time.sleep(delay)` does not change any modelled state. -/
def scrape_multiple (urljoin : String → String → String) (netloc : String → String)
    (env : String → FetchOutcome) (session_id : String) (duration : Rat)
    (urls : List String) (db : DB) : List Record × DB :=
  let st := urls.foldl (scrapeStep urljoin netloc env) ([], db, 0, 0)
  (st.1, ⟨st.2.1.scraped, st.2.1.stats ++ [⟨session_id, urls.length, st.2.2.1, st.2.2.2, duration⟩]⟩)

/-- The record scraped for one URL under environment `env`. -/
def pageOf (urljoin : String → String → String) (netloc : String → String)
    (env : String → FetchOutcome) (url : String) : Record :=
  scrape_page urljoin netloc url (env url)

/-! ## Analytics (`WebScraper.analyze_content`, src/scraper.py lines 238-261)

The SQL aggregates over `scraped_data`: `COUNT(*)` filtered on status,
and `AVG(LENGTH(content))` over success rows (`NULL`, coalesced to `0`
by `or 0`, when there are none).  SQLite's arithmetic and Python's
division are modelled exactly over `Rat`; Python's `round(x, 2)` is
modelled as decimal round-half-to-even at two places. -/

/-- The dict returned by `analyze_content`. -/
structure Analysis where
  total_pages : Nat
  successful : Nat
  failed : Nat
  success_rate : Rat
  avg_content_length : Rat
deriving DecidableEq

/-- Round to the nearest integer, ties to even (Python `round`). -/
def roundHalfEven (q : Rat) : Int :=
  if q - Int.floor q < 1/2 then Int.floor q
  else if 1/2 < q - Int.floor q then Int.floor q + 1
  else if Int.floor q % 2 = 0 then Int.floor q else Int.floor q + 1

/-- Python `round(q, 2)`. -/
def round2 (q : Rat) : Rat := (roundHalfEven (q * 100) : Rat) / 100

/-- `WebScraper.analyze_content`, as a pure function of the
`scraped_data` rows it queries. -/
def analyze_content (rows : List Row) : Analysis :=
  let s := (rows.filter (fun r => r.status == Status.success)).length
  let f := (rows.filter (fun r => r.status == Status.failed)).length
  let lens := (rows.filter (fun r => r.status == Status.success)).map
    (fun r => (r.content.length : Rat))
  let avg : Rat := if s = 0 then 0 else lens.sum / (s : Rat)
  { total_pages := s + f
    successful := s
    failed := f
    success_rate := if 0 < s + f then (s : Rat) / ((s : Rat) + (f : Rat)) * 100 else 0
    avg_content_length := round2 avg }

/-- The specification's "mean character length of `content` over success
records only, defaulting to 0 when none exist". -/
def meanSuccessContentLength (rows : List Row) : Rat :=
  let succ := rows.filter (fun r => r.status == Status.success)
  if succ = [] then 0
  else (succ.map (fun r => (r.content.length : Rat))).sum / (succ.length : Rat)

/-- Trivial URL-resolution environment used for concrete instances. -/
def uj0 : String → String → String := fun _ href => href

/-- Trivial host-extraction environment used for concrete instances. -/
def nl0 : String → String := fun _ => ""

/-- An environment in which every fetch raises (e.g. times out). -/
def env0 : String → FetchOutcome := fun _ => FetchOutcome.exn

/-- An empty parsed page. -/
def page0 : Page := ⟨none, "", [], []⟩

/-- Three success rows whose content lengths are 1, 2 and 4, so the mean
content length is 7/3, which is not representable at two decimals. -/
def rows3 : List Row :=
  [⟨"u1", some "", "a", [], Status.success⟩,
   ⟨"u2", some "", "bb", [], Status.success⟩,
   ⟨"u3", some "", "dddd", [], Status.success⟩]

/-! ## Lemmas: the two whitespace splitters agree after strip-and-filter -/

theorem pyStrip_cons_space (x : List Char) : pyStrip (' ' :: x) = pyStrip x := by
  simp [pyStrip, stripL, List.dropWhile_cons,
    show isPySpace ' ' = true from by decide]

theorem consHead_cons (c : Char) (f : List Char) (fs : List (List Char)) :
    consHead c (f :: fs) = (c :: f) :: fs := rfl

theorem consHead_ne_nil (c : Char) (l : List (List Char)) : consHead c l ≠ [] := by
  cases l <;> simp [consHead]

theorem pySplit2_double (rest : List Char) :
    pySplit2 (' ' :: ' ' :: rest) = [] :: pySplit2 rest := by
  simp [pySplit2]

theorem pySplit2_cons (c1 c2 : Char) (rest : List Char) (h : ¬(c1 = ' ' ∧ c2 = ' ')) :
    pySplit2 (c1 :: c2 :: rest) = consHead c1 (pySplit2 (c2 :: rest)) := by
  simp only [pySplit2]
  rw [if_neg h]

theorem pySplitRuns_single (c : Char) : pySplitRuns [c] = [[c]] := by
  simp [pySplitRuns]

theorem pySplitRuns_double (rest : List Char) :
    pySplitRuns (' ' :: ' ' :: rest)
      = [] :: pySplitRuns (rest.dropWhile (fun c => c = ' ')) := by
  simp [pySplitRuns]

theorem pySplitRuns_cons (c1 c2 : Char) (rest : List Char) (h : ¬(c1 = ' ' ∧ c2 = ' ')) :
    pySplitRuns (c1 :: c2 :: rest) = consHead c1 (pySplitRuns (c2 :: rest)) := by
  rw [pySplitRuns]
  rw [if_neg h]

theorem pySplit2_ne_nil : ∀ l : List Char, pySplit2 l ≠ []
  | [] => by simp [pySplit2]
  | [c] => by simp [pySplit2]
  | c1 :: c2 :: rest => by
    by_cases h : c1 = ' ' ∧ c2 = ' '
    · obtain ⟨h1, h2⟩ := h
      subst h1; subst h2
      rw [pySplit2_double]
      simp
    · rw [pySplit2_cons _ _ _ h]
      exact consHead_ne_nil _ _

theorem pySplitRuns_ne_nil : ∀ l : List Char, pySplitRuns l ≠ []
  | [] => by simp [pySplitRuns]
  | [c] => by rw [pySplitRuns_single]; simp
  | c1 :: c2 :: rest => by
    by_cases h : c1 = ' ' ∧ c2 = ' '
    · obtain ⟨h1, h2⟩ := h
      subst h1; subst h2
      rw [pySplitRuns_double]
      simp
    · rw [pySplitRuns_cons _ _ _ h]
      exact consHead_ne_nil _ _

theorem cleanChunks_nil : cleanChunks [] = [] := rfl

theorem cleanChunks_cons (x : List Char) (xs : List (List Char)) :
    cleanChunks (x :: xs)
      = if (pyStrip x).isEmpty then cleanChunks xs else pyStrip x :: cleanChunks xs := by
  unfold cleanChunks
  rw [List.map_cons, List.filter_cons]
  cases h : (pyStrip x).isEmpty <;> simp [h]

theorem cleanChunks_empty_head (xs : List (List Char)) :
    cleanChunks ([] :: xs) = cleanChunks xs := by
  rw [cleanChunks_cons]
  simp [show pyStrip [] = [] from rfl]

theorem cleanChunks_consHead_space (X : List (List Char)) :
    cleanChunks (consHead ' ' X) = cleanChunks X := by
  cases X with
  | nil => decide
  | cons f fs =>
    rw [consHead_cons, cleanChunks_cons, cleanChunks_cons, pyStrip_cons_space]

theorem cleanChunks_split2_space_aux :
    ∀ (n : Nat) (t : List Char), t.length ≤ n →
      cleanChunks (pySplit2 (' ' :: t)) = cleanChunks (pySplit2 t) := by
  intro n
  induction n with
  | zero =>
    intro t ht
    have h : t = [] := List.length_eq_zero.mp (Nat.le_zero.mp ht)
    subst h
    decide
  | succ n ih =>
    intro t ht
    match t with
    | [] => decide
    | c :: t' =>
      by_cases hc : c = ' '
      · subst hc
        rw [pySplit2_double, cleanChunks_empty_head]
        match t' with
        | [] => decide
        | c' :: t'' =>
          by_cases hc' : c' = ' '
          · subst hc'
            rw [pySplit2_double, cleanChunks_empty_head]
            exact ih t'' (by simp only [List.length_cons] at ht; omega)
          · rw [pySplit2_cons ' ' c' t'' (by simp [hc']),
              cleanChunks_consHead_space]
      · rw [pySplit2_cons ' ' c t' (by simp [hc]), cleanChunks_consHead_space]

theorem cleanChunks_split2_space (t : List Char) :
    cleanChunks (pySplit2 (' ' :: t)) = cleanChunks (pySplit2 t) :=
  cleanChunks_split2_space_aux t.length t le_rfl

theorem cleanChunks_split2_dropWhile (l : List Char) :
    cleanChunks (pySplit2 (l.dropWhile (fun c => c = ' ')))
      = cleanChunks (pySplit2 l) := by
  induction l with
  | nil => rfl
  | cons c l' ih =>
    by_cases hc : c = ' '
    · subst hc
      rw [List.dropWhile_cons]
      simp only [decide_True, if_true]
      rw [ih, ← cleanChunks_split2_space l']
    · rw [List.dropWhile_cons, if_neg (by simpa using hc)]

theorem split2_runs_aux :
    ∀ (n : Nat) (t : List Char), t.length ≤ n →
      cleanChunks (pySplit2 t) = cleanChunks (pySplitRuns t) ∧
        (pySplit2 t).head? = (pySplitRuns t).head? := by
  intro n
  induction n with
  | zero =>
    intro t ht
    have h : t = [] := List.length_eq_zero.mp (Nat.le_zero.mp ht)
    subst h
    exact ⟨by simp [pySplit2, pySplitRuns], by simp [pySplit2, pySplitRuns]⟩
  | succ n ih =>
    intro t ht
    match t with
    | [] => exact ⟨by simp [pySplit2, pySplitRuns], by simp [pySplit2, pySplitRuns]⟩
    | [c] =>
      exact ⟨by rw [pySplitRuns_single]; simp [pySplit2],
        by rw [pySplitRuns_single]; simp [pySplit2]⟩
    | c1 :: c2 :: rest =>
      by_cases h : c1 = ' ' ∧ c2 = ' '
      · obtain ⟨h1, h2⟩ := h
        subst h1; subst h2
        rw [pySplit2_double, pySplitRuns_double]
        refine ⟨?_, rfl⟩
        rw [cleanChunks_empty_head, cleanChunks_empty_head]
        have hlen : (rest.dropWhile (fun c => c = ' ')).length ≤ n := by
          have h1 := dropWhile_length_le (fun c => decide (c = ' ')) rest
          simp only [List.length_cons] at ht
          omega
        rw [← cleanChunks_split2_dropWhile rest]
        exact (ih _ hlen).1
      · rw [pySplit2_cons _ _ _ h, pySplitRuns_cons _ _ _ h]
        have hrec := ih (c2 :: rest) (by simp only [List.length_cons] at ht ⊢; omega)
        obtain ⟨hcc, hhd⟩ := hrec
        rcases hA : pySplit2 (c2 :: rest) with _ | ⟨a, A⟩
        · exact absurd hA (pySplit2_ne_nil _)
        rcases hB : pySplitRuns (c2 :: rest) with _ | ⟨b, B⟩
        · exact absurd hB (pySplitRuns_ne_nil _)
        rw [hA, hB] at hcc hhd
        have hab : a = b := by simpa using hhd
        subst hab
        rw [consHead_cons, consHead_cons]
        have hAB : cleanChunks A = cleanChunks B := by
          rw [cleanChunks_cons, cleanChunks_cons] at hcc
          by_cases he : (pyStrip a).isEmpty
          · simpa [he] using hcc
          · simpa [he] using hcc
        refine ⟨?_, rfl⟩
        rw [cleanChunks_cons, cleanChunks_cons, hAB]

theorem cleanChunks_split2_eq_runs (t : List Char) :
    cleanChunks (pySplit2 t) = cleanChunks (pySplitRuns t) :=
  (split2_runs_aux t.length t le_rfl).1

theorem cleanChunks_append (a b : List (List Char)) :
    cleanChunks (a ++ b) = cleanChunks a ++ cleanChunks b := by
  simp [cleanChunks, List.filter_append]

theorem cleanChunks_flatMap_eq (L : List (List Char)) :
    cleanChunks (L.flatMap pySplit2) = cleanChunks (L.flatMap pySplitRuns) := by
  induction L with
  | nil => rfl
  | cons l L ih =>
    rw [List.flatMap_cons, List.flatMap_cons, cleanChunks_append,
      cleanChunks_append, cleanChunks_split2_eq_runs, ih]

theorem cleanText_eq_spec (t : List Char) : cleanText t = cleanTextSpec t := by
  unfold cleanText cleanTextSpec
  rw [cleanChunks_flatMap_eq]

/-! ## Lemmas: link extraction -/

theorem extract_links_foldl (uj : String → String → String) (nl : String → String)
    (base : String) :
    ∀ (anchors : List String) (acc : List String),
      anchors.foldl
        (fun links href =>
          let url := uj base href
          if nl url == nl base then links ++ [url] else links) acc
        = acc ++ (anchors.map (uj base)).filter (fun u => nl u == nl base) := by
  intro anchors
  induction anchors with
  | nil => intro acc; simp
  | cons a l ih =>
    intro acc
    rw [List.foldl_cons, List.map_cons, List.filter_cons]
    cases h : (nl (uj base a) == nl base) with
    | false =>
      simp only [h, Bool.false_eq_true, if_false]
      exact ih acc
    | true =>
      simp only [h, eq_self_iff_true, if_true]
      rw [ih (acc ++ [uj base a])]
      simp only [List.append_assoc, List.singleton_append]

theorem extract_links_eq (uj : String → String → String) (nl : String → String)
    (anchors : List String) (base : String) :
    extract_links uj nl anchors base
      = ((anchors.map (uj base)).filter (fun u => nl u == nl base)).dedup := by
  unfold extract_links
  rw [extract_links_foldl]
  simp

/-! ## Lemmas: the metadata dict -/

theorem dictGet_map_set (k v : String) :
    ∀ d : List (String × String), d.any (fun p => p.1 == k) = true →
      dictGet (d.map (fun p => if p.1 == k then (k, v) else p)) k = v := by
  intro d
  induction d with
  | nil => simp
  | cons p d ih =>
    intro h
    rw [List.map_cons]
    by_cases hp : (p.1 == k) = true
    · rw [if_pos hp]
      simp [dictGet]
    · rw [if_neg hp]
      rw [dictGet, if_neg hp]
      apply ih
      rw [List.any_cons] at h
      simpa [hp] using h

theorem dictGet_append_single (k v : String) :
    ∀ d : List (String × String), d.any (fun p => p.1 == k) = false →
      dictGet (d ++ [(k, v)]) k = v := by
  intro d
  induction d with
  | nil => intro _; simp [dictGet]
  | cons p d ih =>
    intro h
    rw [List.any_cons] at h
    have hp : (p.1 == k) = false := by
      cases hb : (p.1 == k) <;> simp [hb] at h ⊢
    have hd : d.any (fun p => p.1 == k) = false := by
      cases hb : d.any (fun p => p.1 == k) <;> simp [hb, hp] at h ⊢
    rw [List.cons_append, dictGet, if_neg (by simp [hp])]
    exact ih hd

theorem dictGet_dictSet_self (d : List (String × String)) (k v : String) :
    dictGet (dictSet d k v) k = v := by
  unfold dictSet
  by_cases h : d.any (fun p => p.1 == k) = true
  · rw [if_pos h]
    exact dictGet_map_set k v d h
  · rw [if_neg h]
    refine dictGet_append_single k v d ?_
    rw [Bool.not_eq_true] at h
    exact h

theorem dictGet_map_set_ne (k' k v : String) (hk : k' ≠ k) :
    ∀ d : List (String × String),
      dictGet (d.map (fun p => if p.1 == k' then (k', v) else p)) k = dictGet d k := by
  intro d
  induction d with
  | nil => rfl
  | cons p d ih =>
    rw [List.map_cons]
    by_cases hp : (p.1 == k') = true
    · rw [if_pos hp]
      have hpk' : p.1 = k' := by simpa using hp
      rw [dictGet, dictGet, if_neg (by simp [hk]), if_neg (by simp [hpk', hk]), ih]
    · rw [if_neg hp]
      by_cases hpk : (p.1 == k) = true
      · rw [dictGet, dictGet, if_pos hpk, if_pos hpk]
      · rw [dictGet, dictGet, if_neg hpk, if_neg hpk, ih]

theorem dictGet_append_single_ne (k' k v : String) (hk : k' ≠ k) :
    ∀ d : List (String × String), dictGet (d ++ [(k', v)]) k = dictGet d k := by
  intro d
  induction d with
  | nil => simp [dictGet, hk]
  | cons p d ih =>
    rw [List.cons_append]
    by_cases hpk : (p.1 == k) = true
    · rw [dictGet, dictGet, if_pos hpk, if_pos hpk]
    · rw [dictGet, dictGet, if_neg hpk, if_neg hpk, ih]

theorem dictGet_dictSet_ne (d : List (String × String)) (k' k v : String)
    (hk : k' ≠ k) : dictGet (dictSet d k' v) k = dictGet d k := by
  unfold dictSet
  by_cases h : d.any (fun p => p.1 == k') = true
  · rw [if_pos h]
    exact dictGet_map_set_ne k' k v hk d
  · rw [if_neg h]
    exact dictGet_append_single_ne k' k v hk d

theorem map_fst_set (k v : String) :
    ∀ d : List (String × String),
      (d.map (fun p => if p.1 == k then (k, v) else p)).map Prod.fst
        = d.map Prod.fst := by
  intro d
  induction d with
  | nil => rfl
  | cons p d ih =>
    rw [List.map_cons, List.map_cons, List.map_cons]
    by_cases hp : (p.1 == k) = true
    · rw [if_pos hp]
      have : p.1 = k := by simpa using hp
      rw [ih, this]
    · rw [if_neg hp, ih]

theorem dictSet_keys (d : List (String × String)) (k v : String)
    (h : d.any (fun p => p.1 == k) = true) :
    (dictSet d k v).map Prod.fst = d.map Prod.fst := by
  unfold dictSet
  rw [if_pos h]
  exact map_fst_set k v d

theorem any_key_of_mem (d : List (String × String)) (k : String)
    (h : k ∈ d.map Prod.fst) : d.any (fun p => p.1 == k) = true := by
  rw [List.any_eq_true]
  obtain ⟨p, hp, hpk⟩ := List.mem_map.mp h
  exact ⟨p, hp, by simp [hpk]⟩

/-! ## Lemmas: one `metaStep` iteration, per key -/

theorem metaStep_get_description (d : List (String × String)) (m : MetaTag) :
    dictGet (metaStep d m) "description"
      = if nameMatches "description" m then attrDefault m.content
        else dictGet d "description" := by
  simp only [metaStep, nameMatches]
  by_cases h1 : (pyLower m.name == "description") = true
  · rw [if_pos h1, if_pos h1, dictGet_dictSet_self]
  · rw [if_neg h1, if_neg h1]
    by_cases h2 : (pyLower m.name == "keywords") = true
    · rw [if_pos h2, dictGet_dictSet_ne d "keywords" "description" _ (by decide)]
    · rw [if_neg h2]
      by_cases h3 : (pyLower m.name == "author") = true
      · rw [if_pos h3, dictGet_dictSet_ne d "author" "description" _ (by decide)]
      · rw [if_neg h3]
        by_cases h4 : (pyLower m.property == "og:title") = true
        · rw [if_pos h4, dictGet_dictSet_ne d "og_title" "description" _ (by decide)]
        · rw [if_neg h4]
          by_cases h5 : (pyLower m.property == "og:description") = true
          · rw [if_pos h5,
              dictGet_dictSet_ne d "og_description" "description" _ (by decide)]
          · rw [if_neg h5]

theorem metaStep_get_keywords (d : List (String × String)) (m : MetaTag) :
    dictGet (metaStep d m) "keywords"
      = if nameMatches "keywords" m then attrDefault m.content
        else dictGet d "keywords" := by
  simp only [metaStep, nameMatches]
  by_cases h1 : (pyLower m.name == "description") = true
  · have hname : pyLower m.name = "description" := by simpa using h1
    rw [if_pos h1, dictGet_dictSet_ne d "description" "keywords" _ (by decide),
      if_neg (by simp [hname])]
  · rw [if_neg h1]
    by_cases h2 : (pyLower m.name == "keywords") = true
    · rw [if_pos h2, if_pos h2, dictGet_dictSet_self]
    · rw [if_neg h2, if_neg h2]
      by_cases h3 : (pyLower m.name == "author") = true
      · rw [if_pos h3, dictGet_dictSet_ne d "author" "keywords" _ (by decide)]
      · rw [if_neg h3]
        by_cases h4 : (pyLower m.property == "og:title") = true
        · rw [if_pos h4, dictGet_dictSet_ne d "og_title" "keywords" _ (by decide)]
        · rw [if_neg h4]
          by_cases h5 : (pyLower m.property == "og:description") = true
          · rw [if_pos h5,
              dictGet_dictSet_ne d "og_description" "keywords" _ (by decide)]
          · rw [if_neg h5]

theorem metaStep_get_author (d : List (String × String)) (m : MetaTag) :
    dictGet (metaStep d m) "author"
      = if nameMatches "author" m then attrDefault m.content
        else dictGet d "author" := by
  simp only [metaStep, nameMatches]
  by_cases h1 : (pyLower m.name == "description") = true
  · have hname : pyLower m.name = "description" := by simpa using h1
    rw [if_pos h1, dictGet_dictSet_ne d "description" "author" _ (by decide),
      if_neg (by simp [hname])]
  · rw [if_neg h1]
    by_cases h2 : (pyLower m.name == "keywords") = true
    · have hname : pyLower m.name = "keywords" := by simpa using h2
      rw [if_pos h2, dictGet_dictSet_ne d "keywords" "author" _ (by decide),
        if_neg (by simp [hname])]
    · rw [if_neg h2]
      by_cases h3 : (pyLower m.name == "author") = true
      · rw [if_pos h3, if_pos h3, dictGet_dictSet_self]
      · rw [if_neg h3, if_neg h3]
        by_cases h4 : (pyLower m.property == "og:title") = true
        · rw [if_pos h4, dictGet_dictSet_ne d "og_title" "author" _ (by decide)]
        · rw [if_neg h4]
          by_cases h5 : (pyLower m.property == "og:description") = true
          · rw [if_pos h5,
              dictGet_dictSet_ne d "og_description" "author" _ (by decide)]
          · rw [if_neg h5]

theorem metaStep_get_og_title (d : List (String × String)) (m : MetaTag) :
    dictGet (metaStep d m) "og_title"
      = if ogMatchesAmended "og:title" m then attrDefault m.content
        else dictGet d "og_title" := by
  simp only [metaStep, ogMatchesAmended, nameIsReserved]
  by_cases h1 : (pyLower m.name == "description") = true
  · rw [if_pos h1, dictGet_dictSet_ne d "description" "og_title" _ (by decide),
      if_neg (by simp [h1])]
  · rw [if_neg h1]
    rw [Bool.not_eq_true] at h1
    by_cases h2 : (pyLower m.name == "keywords") = true
    · rw [if_pos h2, dictGet_dictSet_ne d "keywords" "og_title" _ (by decide),
        if_neg (by simp [h2])]
    · rw [if_neg h2]
      rw [Bool.not_eq_true] at h2
      by_cases h3 : (pyLower m.name == "author") = true
      · rw [if_pos h3, dictGet_dictSet_ne d "author" "og_title" _ (by decide),
          if_neg (by simp [h3])]
      · rw [if_neg h3]
        rw [Bool.not_eq_true] at h3
        by_cases h4 : (pyLower m.property == "og:title") = true
        · rw [if_pos h4, dictGet_dictSet_self, if_pos (by simp [h1, h2, h3, h4])]
        · rw [if_neg h4]
          rw [Bool.not_eq_true] at h4
          by_cases h5 : (pyLower m.property == "og:description") = true
          · rw [if_pos h5,
              dictGet_dictSet_ne d "og_description" "og_title" _ (by decide),
              if_neg (by simp [h4])]
          · rw [if_neg h5, if_neg (by simp [h4])]

theorem metaStep_get_og_description (d : List (String × String)) (m : MetaTag) :
    dictGet (metaStep d m) "og_description"
      = if ogMatchesAmended "og:description" m then attrDefault m.content
        else dictGet d "og_description" := by
  simp only [metaStep, ogMatchesAmended, nameIsReserved]
  by_cases h1 : (pyLower m.name == "description") = true
  · rw [if_pos h1, dictGet_dictSet_ne d "description" "og_description" _ (by decide),
      if_neg (by simp [h1])]
  · rw [if_neg h1]
    rw [Bool.not_eq_true] at h1
    by_cases h2 : (pyLower m.name == "keywords") = true
    · rw [if_pos h2, dictGet_dictSet_ne d "keywords" "og_description" _ (by decide),
        if_neg (by simp [h2])]
    · rw [if_neg h2]
      rw [Bool.not_eq_true] at h2
      by_cases h3 : (pyLower m.name == "author") = true
      · rw [if_pos h3, dictGet_dictSet_ne d "author" "og_description" _ (by decide),
          if_neg (by simp [h3])]
      · rw [if_neg h3]
        rw [Bool.not_eq_true] at h3
        by_cases h4 : (pyLower m.property == "og:title") = true
        · have hprop : pyLower m.property = "og:title" := by simpa using h4
          rw [if_pos h4, dictGet_dictSet_ne d "og_title" "og_description" _ (by decide),
            if_neg (by simp [hprop])]
        · rw [if_neg h4]
          by_cases h5 : (pyLower m.property == "og:description") = true
          · rw [if_pos h5, dictGet_dictSet_self,
              if_pos (by simp [h1, h2, h3, h5])]
          · rw [if_neg h5, if_neg (by simp [h5])]

/-! ## Lemmas: the whole `extract_metadata` fold -/

theorem foldl_metaStep_get (key : String) (pred : MetaTag → Bool)
    (hstep : ∀ d m, dictGet (metaStep d m) key
      = if pred m then attrDefault m.content else dictGet d key) :
    ∀ (metas : List MetaTag) (d : List (String × String)),
      dictGet (metas.foldl metaStep d) key
        = metas.foldl (fun acc m => if pred m then attrDefault m.content else acc)
            (dictGet d key) := by
  intro metas
  induction metas with
  | nil => intro d; rfl
  | cons m metas ih =>
    intro d
    rw [List.foldl_cons, List.foldl_cons, ih, hstep]

theorem metaStep_keys (d : List (String × String)) (m : MetaTag)
    (h : d.map Prod.fst = initMetadata.map Prod.fst) :
    (metaStep d m).map Prod.fst = d.map Prod.fst := by
  have hmem : ∀ k : String, k ∈ initMetadata.map Prod.fst →
      d.any (fun p => p.1 == k) = true := fun k hk =>
    any_key_of_mem d k (by rw [h]; exact hk)
  simp only [metaStep]
  split_ifs <;>
    first
      | rfl
      | rw [dictSet_keys _ _ _ (hmem _ (by decide))]

theorem foldl_metaStep_keys :
    ∀ (metas : List MetaTag) (d : List (String × String)),
      d.map Prod.fst = initMetadata.map Prod.fst →
      (metas.foldl metaStep d).map Prod.fst = initMetadata.map Prod.fst := by
  intro metas
  induction metas with
  | nil => intro d h; exact h
  | cons m metas ih =>
    intro d h
    rw [List.foldl_cons]
    exact ih _ (by rw [metaStep_keys d m h, h])

/-! ## Lemmas: page pipeline -/

theorem scrape_page_url (uj : String → String → String) (nl : String → String)
    (url : String) (o : FetchOutcome) : (scrape_page uj nl url o).url = url := by
  cases o with
  | exn => rfl
  | response st body =>
    simp only [scrape_page, fetch_page, raise_for_status]
    by_cases h : 400 ≤ st ∧ st < 600
    · rw [if_pos h]
      rfl
    · rw [if_neg h]
      cases body <;> rfl

theorem scrape_page_failure (uj : String → String → String) (nl : String → String)
    (url : String) (o : FetchOutcome) (h : isFailureOutcome o = true) :
    scrape_page uj nl url o = failedRecord url := by
  cases o with
  | exn => rfl
  | response st body =>
    cases body with
    | error e =>
      simp only [scrape_page, fetch_page, raise_for_status]
      by_cases hst : 400 ≤ st ∧ st < 600
      · rw [if_pos hst]
      · rw [if_neg hst]
    | ok page =>
      have hst : 400 ≤ st ∧ st < 600 := by
        simpa [isFailureOutcome] using h
      simp only [scrape_page, fetch_page, raise_for_status]
      rw [if_pos hst]

theorem scrape_page_success (uj : String → String → String) (nl : String → String)
    (url : String) (o : FetchOutcome) (h : isFailureOutcome o = false) :
    ∃ st page, o = FetchOutcome.response st (Except.ok page)
      ∧ ¬(400 ≤ st ∧ st < 600)
      ∧ scrape_page uj nl url o = buildRecord uj nl url page := by
  cases o with
  | exn => simp [isFailureOutcome] at h
  | response st body =>
    cases body with
    | error e => simp [isFailureOutcome] at h
    | ok page =>
      have hst : ¬(400 ≤ st ∧ st < 600) := by
        simpa [isFailureOutcome] using h
      refine ⟨st, page, rfl, hst, ?_⟩
      simp only [scrape_page, fetch_page, raise_for_status]
      rw [if_neg hst]

theorem scrape_page_status (uj : String → String → String) (nl : String → String)
    (url : String) (o : FetchOutcome) :
    (scrape_page uj nl url o).status = Status.success ↔ isFailureOutcome o = false := by
  constructor
  · intro h
    cases hf : isFailureOutcome o with
    | false => rfl
    | true =>
      rw [scrape_page_failure uj nl url o hf] at h
      exact absurd h (by simp [failedRecord])
  · intro h
    obtain ⟨st, page, _, _, heq⟩ := scrape_page_success uj nl url o h
    rw [heq]
    rfl

/-! ## Lemmas: batch runner loop -/

theorem scrape_loop (uj : String → String → String) (nl : String → String)
    (env : String → FetchOutcome) :
    ∀ (urls : List String) (results : List Record) (db : DB) (s f : Nat),
      urls.foldl (scrapeStep uj nl env) (results, db, s, f)
        = (results ++ urls.map (pageOf uj nl env),
           ⟨db.scraped ++ (urls.map (pageOf uj nl env)).map toRow, db.stats⟩,
           s + ((urls.map (pageOf uj nl env)).filter
             (fun r => r.status == Status.success)).length,
           f + ((urls.map (pageOf uj nl env)).filter
             (fun r => r.status == Status.failed)).length) := by
  intro urls
  induction urls with
  | nil => intro results db s f; simp
  | cons u urls ih =>
    intro results db s f
    rw [List.foldl_cons, List.map_cons]
    have hpage : scrape_page uj nl u (env u) = pageOf uj nl env u := rfl
    simp only [scrapeStep, hpage]
    by_cases h : (pageOf uj nl env u).status = Status.success
    · rw [if_pos h, ih]
      have hsucc : ((pageOf uj nl env u).status == Status.success) = true := by
        simp [h]
      have hfail : ((pageOf uj nl env u).status == Status.failed) = false := by
        simp [h]
      simp [List.filter_cons, hsucc, hfail, save_to_db, List.append_assoc,
        Nat.add_assoc, Nat.add_comm, Nat.add_left_comm]
    · rw [if_neg h, ih]
      have hfailstat : (pageOf uj nl env u).status = Status.failed := by
        cases hs : (pageOf uj nl env u).status with
        | success => exact absurd hs h
        | failed => rfl
      have hsucc : ((pageOf uj nl env u).status == Status.success) = false := by
        simp [hfailstat]
      have hfail : ((pageOf uj nl env u).status == Status.failed) = true := by
        simp [hfailstat]
      simp [List.filter_cons, hsucc, hfail, save_to_db, List.append_assoc,
        Nat.add_assoc, Nat.add_comm, Nat.add_left_comm]

theorem scrape_multiple_results (uj : String → String → String) (nl : String → String)
    (env : String → FetchOutcome) (sid : String) (dur : Rat)
    (urls : List String) (db : DB) :
    (scrape_multiple uj nl env sid dur urls db).1 = urls.map (pageOf uj nl env) := by
  simp only [scrape_multiple]
  rw [scrape_loop]
  simp

theorem scrape_multiple_db (uj : String → String → String) (nl : String → String)
    (env : String → FetchOutcome) (sid : String) (dur : Rat)
    (urls : List String) (db : DB) :
    (scrape_multiple uj nl env sid dur urls db).2
      = ⟨db.scraped ++ (urls.map (pageOf uj nl env)).map toRow,
         db.stats ++ [⟨sid, urls.length,
           ((urls.map (pageOf uj nl env)).filter
             (fun r => r.status == Status.success)).length,
           ((urls.map (pageOf uj nl env)).filter
             (fun r => r.status == Status.failed)).length, dur⟩]⟩ := by
  simp only [scrape_multiple]
  rw [scrape_loop]
  simp

theorem map_pageOf_url (uj : String → String → String) (nl : String → String)
    (env : String → FetchOutcome) :
    ∀ urls : List String, (urls.map (pageOf uj nl env)).map Record.url = urls := by
  intro urls
  induction urls with
  | nil => rfl
  | cons u urls ih => simp [pageOf, scrape_page_url, ih]

theorem record_partition : ∀ l : List Record,
    (l.filter (fun r => r.status == Status.success)).length
      + (l.filter (fun r => r.status == Status.failed)).length = l.length := by
  intro l
  induction l with
  | nil => rfl
  | cons r l ih =>
    rw [List.filter_cons, List.filter_cons]
    cases hr : r.status with
    | success => simp [hr]; omega
    | failed => simp [hr]; omega

theorem row_partition : ∀ l : List Row,
    (l.filter (fun r => r.status == Status.success)).length
      + (l.filter (fun r => r.status == Status.failed)).length = l.length := by
  intro l
  induction l with
  | nil => rfl
  | cons r l ih =>
    rw [List.filter_cons, List.filter_cons]
    cases hr : r.status with
    | success => simp [hr]; omega
    | failed => simp [hr]; omega

theorem filter_toRow (st : Status) (l : List Record) :
    (l.map toRow).filter (fun r => r.status == st)
      = (l.filter (fun r => r.status == st)).map toRow := by
  induction l with
  | nil => rfl
  | cons r l ih =>
    rw [List.map_cons, List.filter_cons, List.filter_cons]
    have hc : ((toRow r).status == st) = (r.status == st) := rfl
    rw [hc]
    cases h : (r.status == st) with
    | false => simpa [h] using ih
    | true => simp only [h, if_true, eq_self_iff_true, List.map_cons, ih]

theorem dictSet_changed (d : List (String × String)) (k0 v k : String)
    (h : dictGet (dictSet d k0 v) k ≠ dictGet d k) : k = k0 := by
  by_contra hne
  exact h (dictGet_dictSet_ne d k0 k v (fun he => hne he.symm))

/-! ## The claims -/

/-- Claim C1: for every ordered list of N input URLs (under any fetch
environment, clock reading and prior database state), `scrape_multiple`
returns exactly N records whose i-th url is the i-th input URL (input
order preserved regardless of status), appends exactly those N records
as rows to the `scraped_data` log, and appends exactly one
`scraping_stats` row whose `total_pages` equals N. -/
theorem scrape_multiple_pages (uj : String → String → String) (nl : String → String)
    (env : String → FetchOutcome) (sid : String) (dur : Rat)
    (urls : List String) (db : DB) :
    (scrape_multiple uj nl env sid dur urls db).1.map Record.url = urls
    ∧ (scrape_multiple uj nl env sid dur urls db).1.length = urls.length
    ∧ (scrape_multiple uj nl env sid dur urls db).2.scraped
        = db.scraped ++ ((scrape_multiple uj nl env sid dur urls db).1.map toRow)
    ∧ ((scrape_multiple uj nl env sid dur urls db).2.scraped).length
        = db.scraped.length + urls.length
    ∧ (scrape_multiple uj nl env sid dur urls db).2.stats.map StatsRow.total_pages
        = db.stats.map StatsRow.total_pages ++ [urls.length]
    ∧ ((scrape_multiple uj nl env sid dur urls db).2.stats).length
        = db.stats.length + 1 := by
  rw [scrape_multiple_results, scrape_multiple_db]
  refine ⟨map_pageOf_url uj nl env urls, by simp, by simp, by simp, by simp, by simp⟩

/-- Claim C3: in the `scraping_stats` row written by `scrape_multiple`,
`successful` and `failed` are natural numbers (hence non-negative) with
`successful + failed = total_pages = N`, and they equal the success and
failure counts that `analyze_content` derives from the rows persisted
during that session. -/
theorem scrape_multiple_stats (uj : String → String → String) (nl : String → String)
    (env : String → FetchOutcome) (sid : String) (dur : Rat)
    (urls : List String) (db : DB) :
    (scrape_multiple uj nl env sid dur urls db).2.stats
        = db.stats ++ [⟨sid, urls.length,
            ((urls.map (pageOf uj nl env)).filter
              (fun r => r.status == Status.success)).length,
            ((urls.map (pageOf uj nl env)).filter
              (fun r => r.status == Status.failed)).length, dur⟩]
    ∧ ((urls.map (pageOf uj nl env)).filter
          (fun r => r.status == Status.success)).length
        + ((urls.map (pageOf uj nl env)).filter
          (fun r => r.status == Status.failed)).length = urls.length
    ∧ (analyze_content ((urls.map (pageOf uj nl env)).map toRow)).successful
        = ((urls.map (pageOf uj nl env)).filter
            (fun r => r.status == Status.success)).length
    ∧ (analyze_content ((urls.map (pageOf uj nl env)).map toRow)).failed
        = ((urls.map (pageOf uj nl env)).filter
            (fun r => r.status == Status.failed)).length
    ∧ (analyze_content ((urls.map (pageOf uj nl env)).map toRow)).total_pages
        = urls.length := by
  refine ⟨by rw [scrape_multiple_db], ?_, ?_, ?_, ?_⟩
  · rw [record_partition, List.length_map]
  · show ((((urls.map (pageOf uj nl env)).map toRow).filter
      (fun r => r.status == Status.success)).length) = _
    rw [filter_toRow, List.length_map]
  · show ((((urls.map (pageOf uj nl env)).map toRow).filter
      (fun r => r.status == Status.failed)).length) = _
    rw [filter_toRow, List.length_map]
  · show ((((urls.map (pageOf uj nl env)).map toRow).filter
        (fun r => r.status == Status.success)).length)
      + ((((urls.map (pageOf uj nl env)).map toRow).filter
        (fun r => r.status == Status.failed)).length) = _
    rw [filter_toRow, filter_toRow, List.length_map, List.length_map,
      record_partition, List.length_map]

/-- Claim C5 (amended): running `scrape_multiple` twice on the same list
of N URLs appends 2 × N rows to the `scraped_data` log (no
deduplication) and exactly two `scraping_stats` rows carrying the two
runs' session ids — which are distinct whenever the two runs' formatted
start times differ.  (The code formats `datetime.now()` at second
granularity, so two runs starting within the same wall-clock second get
the same `session_id`; the unconditional claim fails there.) -/
theorem scrape_multiple_rerun (uj : String → String → String) (nl : String → String)
    (env1 env2 : String → FetchOutcome) (sid1 sid2 : String) (dur1 dur2 : Rat)
    (urls : List String) (db : DB) (hsid : sid1 ≠ sid2) :
    ((scrape_multiple uj nl env2 sid2 dur2 urls
        (scrape_multiple uj nl env1 sid1 dur1 urls db).2).2.scraped).length
      = db.scraped.length + 2 * urls.length
    ∧ (scrape_multiple uj nl env2 sid2 dur2 urls
        (scrape_multiple uj nl env1 sid1 dur1 urls db).2).2.stats.map StatsRow.session_id
      = db.stats.map StatsRow.session_id ++ [sid1, sid2]
    ∧ sid1 ≠ sid2 := by
  rw [scrape_multiple_db, scrape_multiple_db]
  refine ⟨by simp; omega, by simp, hsid⟩

/-- Witness for Claim C5's theorem at a concrete pair of runs with
distinct session ids. -/
theorem scrape_multiple_rerun_witness :
    ((scrape_multiple uj0 nl0 env0 "20260101_120001" 0 ["https://example.com"]
        (scrape_multiple uj0 nl0 env0 "20260101_120000" 0 ["https://example.com"]
          ⟨[], []⟩).2).2.scraped).length
      = (⟨[], []⟩ : DB).scraped.length + 2 * (["https://example.com"] : List String).length
    ∧ (scrape_multiple uj0 nl0 env0 "20260101_120001" 0 ["https://example.com"]
        (scrape_multiple uj0 nl0 env0 "20260101_120000" 0 ["https://example.com"]
          ⟨[], []⟩).2).2.stats.map StatsRow.session_id
      = (⟨[], []⟩ : DB).stats.map StatsRow.session_id
          ++ ["20260101_120000", "20260101_120001"]
    ∧ ("20260101_120000" : String) ≠ "20260101_120001" :=
  scrape_multiple_rerun uj0 nl0 env0 env0 "20260101_120000" "20260101_120001" 0 0
    ["https://example.com"] ⟨[], []⟩ (by decide)

/-- Counterexample to Claim C5 as stated: the code derives `session_id`
from `datetime.now()` formatted as `%Y%m%d_%H%M%S`, which has second
granularity, so two consecutive runs starting in the same wall-clock
second observe the same formatted time and get equal session ids — the
two stats rows' `session_id` values are then not distinct. -/
theorem scrape_multiple_rerun_claim_false :
    ¬ (∀ (uj : String → String → String) (nl : String → String)
        (env1 env2 : String → FetchOutcome) (sid1 sid2 : String)
        (dur1 dur2 : Rat) (urls : List String) (db : DB),
        ((scrape_multiple uj nl env2 sid2 dur2 urls
            (scrape_multiple uj nl env1 sid1 dur1 urls db).2).2.scraped).length
          = db.scraped.length + 2 * urls.length
        ∧ (scrape_multiple uj nl env2 sid2 dur2 urls
            (scrape_multiple uj nl env1 sid1 dur1 urls db).2).2.stats.map
              StatsRow.session_id
          = db.stats.map StatsRow.session_id ++ [sid1, sid2]
        ∧ sid1 ≠ sid2) := by
  intro h
  exact (h uj0 nl0 env0 env0 "20260101_120000" "20260101_120000" 0 0 []
    ⟨[], []⟩).2.2 rfl

/-- Claim C2: `scrape_page` is a total function (it returns a `Record`
for every input, so callers never observe a per-page exception), and on
every failure path — a raised transport exception or timeout, an HTTP
error status (the 4xx/5xx statuses `raise_for_status` raises for), or
any exception while parsing/extracting — it returns the record with
status failed, empty title, empty content, empty links, empty metadata,
and the original input url preserved unchanged. -/
theorem scrape_page_total (uj : String → String → String) (nl : String → String)
    (url : String) (o : FetchOutcome) :
    (scrape_page uj nl url o).url = url
    ∧ (isFailureOutcome o = true → scrape_page uj nl url o = failedRecord url)
    ∧ (failedRecord url).status = Status.failed
    ∧ (failedRecord url).title = some ""
    ∧ (failedRecord url).content = ""
    ∧ (failedRecord url).links = []
    ∧ (failedRecord url).metadata = []
    ∧ (failedRecord url).url = url :=
  ⟨scrape_page_url uj nl url o, scrape_page_failure uj nl url o,
    rfl, rfl, rfl, rfl, rfl, rfl⟩

/-- Witness for Claim C2's theorem at a concrete timed-out fetch. -/
theorem scrape_page_total_witness :
    scrape_page uj0 nl0 "https://example.com" FetchOutcome.exn
      = failedRecord "https://example.com" :=
  (scrape_page_total uj0 nl0 "https://example.com" FetchOutcome.exn).2.1 (by decide)

/-- Counterexample to Claim C4 as stated, in both directions it fails:
the failed record's `metadata` is the *empty* dict `{}` (src/scraper.py
line 154), not the default mapping of the five fixed keys to empty
strings; and `raise_for_status` only raises for 4xx/5xx, so a 304
response — outside the 2xx range — still produces a success record. -/
theorem record_invariants_claim_false :
    (¬ (∀ (uj : String → String → String) (nl : String → String)
          (url : String) (o : FetchOutcome),
          ((scrape_page uj nl url o).status = Status.failed →
            (scrape_page uj nl url o).title = some ""
            ∧ (scrape_page uj nl url o).content = ""
            ∧ (scrape_page uj nl url o).links = []
            ∧ (scrape_page uj nl url o).metadata = initMetadata)
          ∧ ((scrape_page uj nl url o).status = Status.success →
            ∃ st page, o = FetchOutcome.response st (Except.ok page)
              ∧ 200 ≤ st ∧ st < 300)))
    ∧ (scrape_page uj0 nl0 "u" (FetchOutcome.response 304 (Except.ok page0))).status
        = Status.success := by
  refine ⟨fun h => ?_, by decide⟩
  have h1 := (h uj0 nl0 "u" FetchOutcome.exn).1 (by decide)
  exact absurd h1.2.2.2 (by decide)

/-- Claim C4 (amended): every record `scrape_page` produces with status
failed has empty title, content and links and the *empty* metadata
mapping; and every record with status success was built from an HTTP
response whose status code lies outside the `raise_for_status` error
range [400, 600) (requests does not raise for 2xx *or* 3xx — e.g. 304 —
statuses). -/
theorem record_invariants (uj : String → String → String) (nl : String → String)
    (url : String) (o : FetchOutcome) :
    ((scrape_page uj nl url o).status = Status.failed →
      (scrape_page uj nl url o).title = some ""
      ∧ (scrape_page uj nl url o).content = ""
      ∧ (scrape_page uj nl url o).links = []
      ∧ (scrape_page uj nl url o).metadata = [])
    ∧ ((scrape_page uj nl url o).status = Status.success →
      ∃ st page, o = FetchOutcome.response st (Except.ok page)
        ∧ ¬(400 ≤ st ∧ st < 600)) := by
  cases hf : isFailureOutcome o with
  | true =>
    rw [scrape_page_failure uj nl url o hf]
    exact ⟨fun _ => ⟨rfl, rfl, rfl, rfl⟩, fun hs => absurd hs (by simp [failedRecord])⟩
  | false =>
    obtain ⟨st, page, ho, hst, heq⟩ := scrape_page_success uj nl url o hf
    rw [heq]
    exact ⟨fun hs => absurd hs (by simp [buildRecord]),
      fun _ => ⟨st, page, ho, hst⟩⟩

/-- Witness for Claim C4's theorem: the failed-record shape at a raised
fetch, and the non-4xx/5xx origin of a success record built from a 304
response. -/
theorem record_invariants_witness :
    ((scrape_page uj0 nl0 "u" FetchOutcome.exn).title = some ""
      ∧ (scrape_page uj0 nl0 "u" FetchOutcome.exn).content = ""
      ∧ (scrape_page uj0 nl0 "u" FetchOutcome.exn).links = []
      ∧ (scrape_page uj0 nl0 "u" FetchOutcome.exn).metadata = [])
    ∧ (∃ st page,
        FetchOutcome.response 304 (Except.ok page0)
          = FetchOutcome.response st (Except.ok page)
        ∧ ¬(400 ≤ st ∧ st < 600)) :=
  ⟨(record_invariants uj0 nl0 "u" FetchOutcome.exn).1 (by decide),
   (record_invariants uj0 nl0 "u"
     (FetchOutcome.response 304 (Except.ok page0))).2 (by decide)⟩

/-- Claim C6: the `extract_text` cleaning equals the two-pass reference
algorithm of the specification — split on line boundaries, strip each
line, re-split each line on double-space runs, strip each fragment, drop
empty fragments, join survivors with single spaces (line-split strictly
before space-split) — for every input text; in particular
`"  a  \n  b  "` cleans to exactly `"a b"`. -/
theorem extract_text_two_pass :
    (∀ s : String, extract_text s = extractTextSpec s)
    ∧ extract_text "  a  \n  b  " = "a b" :=
  ⟨fun s => congrArg String.mk (cleanText_eq_spec s.data), by decide⟩

/-- Claim C7: for every resolution environment, page and base URL,
`extract_links` returns exactly the set of anchor hrefs resolved against
the base whose resolved host equals the base host, with duplicates
removed; on the specification's example page (two anchors to
`https://ex.com/a` and one to `https://other.com/b`, base
`https://ex.com`) the result is exactly the singleton
`{https://ex.com/a}`. -/
theorem extract_links_set :
    (∀ (uj : String → String → String) (nl : String → String)
        (anchors : List String) (base : String),
        (extract_links uj nl anchors base).toFinset
          = ((anchors.map (uj base)).filter (fun u => nl u == nl base)).toFinset
        ∧ (extract_links uj nl anchors base).Nodup)
    ∧ extract_links exUrljoin exNetloc
        ["https://ex.com/a", "https://other.com/b", "https://ex.com/a"]
        "https://ex.com" = ["https://ex.com/a"] := by
  refine ⟨fun uj nl anchors base => ⟨?_, ?_⟩, by decide⟩
  · rw [extract_links_eq]
    ext x
    simp [List.mem_toFinset, List.mem_dedup]
  · rw [extract_links_eq]
    exact List.nodup_dedup _

/-- Counterexample to Claim C8 as stated: on a page whose second meta
element has both `name="description"` and `property="og:title"`, the
`elif` chain consumes the element for `description` and never updates
`og_title`, so `og_title` keeps the first element's content "A" instead
of the last `property`-matching element's content "B". -/
theorem extract_metadata_claim_false :
    ¬ (∀ metas : List MetaTag,
        (extract_metadata metas).map Prod.fst
            = ["description", "keywords", "author", "og_title", "og_description"]
        ∧ dictGet (extract_metadata metas) "description"
            = lastMatchContent (nameMatches "description") metas
        ∧ dictGet (extract_metadata metas) "keywords"
            = lastMatchContent (nameMatches "keywords") metas
        ∧ dictGet (extract_metadata metas) "author"
            = lastMatchContent (nameMatches "author") metas
        ∧ dictGet (extract_metadata metas) "og_title"
            = lastMatchContent (ogMatches "og:title") metas
        ∧ dictGet (extract_metadata metas) "og_description"
            = lastMatchContent (ogMatches "og:description") metas) := by
  intro h
  have hog := (h metasCounterexample).2.2.2.2.1
  rw [show dictGet (extract_metadata metasCounterexample) "og_title" = "A"
      from by decide,
    show lastMatchContent (ogMatches "og:title") metasCounterexample = "B"
      from by decide] at hog
  exact absurd hog (by decide)

/-- Claim C8 (amended): `extract_metadata` returns a mapping over
exactly the five fixed keys; each name-based key holds the content of
the last meta element whose `name` case-insensitively equals it, and
each og key holds the content of the last meta element whose `property`
case-insensitively equals it *and whose name matches no name-based key*
(the `elif` chain gives name matches precedence); keys with no matching
element hold the empty string. -/
theorem extract_metadata_spec (metas : List MetaTag) :
    (extract_metadata metas).map Prod.fst
        = ["description", "keywords", "author", "og_title", "og_description"]
    ∧ dictGet (extract_metadata metas) "description"
        = lastMatchContent (nameMatches "description") metas
    ∧ dictGet (extract_metadata metas) "keywords"
        = lastMatchContent (nameMatches "keywords") metas
    ∧ dictGet (extract_metadata metas) "author"
        = lastMatchContent (nameMatches "author") metas
    ∧ dictGet (extract_metadata metas) "og_title"
        = lastMatchContent (ogMatchesAmended "og:title") metas
    ∧ dictGet (extract_metadata metas) "og_description"
        = lastMatchContent (ogMatchesAmended "og:description") metas := by
  refine ⟨foldl_metaStep_keys metas initMetadata rfl, ?_, ?_, ?_, ?_, ?_⟩
  · rw [extract_metadata, lastMatchContent,
      foldl_metaStep_get "description" (nameMatches "description")
        metaStep_get_description metas initMetadata]
    rfl
  · rw [extract_metadata, lastMatchContent,
      foldl_metaStep_get "keywords" (nameMatches "keywords")
        metaStep_get_keywords metas initMetadata]
    rfl
  · rw [extract_metadata, lastMatchContent,
      foldl_metaStep_get "author" (nameMatches "author")
        metaStep_get_author metas initMetadata]
    rfl
  · rw [extract_metadata, lastMatchContent,
      foldl_metaStep_get "og_title" (ogMatchesAmended "og:title")
        metaStep_get_og_title metas initMetadata]
    rfl
  · rw [extract_metadata, lastMatchContent,
      foldl_metaStep_get "og_description" (ogMatchesAmended "og:description")
        metaStep_get_og_description metas initMetadata]
    rfl

/-- Claim C10: in `extract_metadata`, a single meta element updates at
most one metadata key, and name-based matches take precedence over
property-based ones — for a meta element whose `name` matches
description, keywords or author, the `property` attribute (any
`og:title`/`og:description` it may hold) is ignored entirely: the
`elif` chain stops at the first matching case. -/
theorem metaStep_precedence :
    (∀ (d : List (String × String)) (m : MetaTag) (p' : Option String),
      nameIsReserved m = true →
      metaStep d m = metaStep d ⟨m.name, p', m.content⟩)
    ∧ (∀ (d : List (String × String)) (m : MetaTag) (k1 k2 : String),
      dictGet (metaStep d m) k1 ≠ dictGet d k1 →
      dictGet (metaStep d m) k2 ≠ dictGet d k2 → k1 = k2) := by
  constructor
  · intro d m p' hres
    obtain ⟨mn, mp, mc⟩ := m
    simp only [nameIsReserved, Bool.or_eq_true] at hres
    simp only [metaStep]
    rcases hres with (h1 | h2) | h3
    · rw [if_pos h1, if_pos h1]
    · by_cases h1 : (pyLower mn == "description") = true
      · rw [if_pos h1, if_pos h1]
      · rw [if_neg h1, if_neg h1, if_pos h2, if_pos h2]
    · by_cases h1 : (pyLower mn == "description") = true
      · rw [if_pos h1, if_pos h1]
      · by_cases h2 : (pyLower mn == "keywords") = true
        · rw [if_neg h1, if_neg h1, if_pos h2, if_pos h2]
        · rw [if_neg h1, if_neg h1, if_neg h2, if_neg h2, if_pos h3, if_pos h3]
  · intro d m k1 k2 h1 h2
    simp only [metaStep] at h1 h2
    split_ifs at h1 h2
    · exact (dictSet_changed _ _ _ _ h1).trans (dictSet_changed _ _ _ _ h2).symm
    · exact (dictSet_changed _ _ _ _ h1).trans (dictSet_changed _ _ _ _ h2).symm
    · exact (dictSet_changed _ _ _ _ h1).trans (dictSet_changed _ _ _ _ h2).symm
    · exact (dictSet_changed _ _ _ _ h1).trans (dictSet_changed _ _ _ _ h2).symm
    · exact (dictSet_changed _ _ _ _ h1).trans (dictSet_changed _ _ _ _ h2).symm
    · exact absurd rfl h1

/-- Witness for Claim C10's theorem: a concrete meta element with
`name="description"` and `property="og:title"` whose property value is
ignored, and a concrete update that changes exactly the one key
`description`. -/
theorem metaStep_precedence_witness :
    metaStep initMetadata ⟨some "description", some "og:title", some "B"⟩
      = metaStep initMetadata ⟨some "description", none, some "B"⟩
    ∧ ("description" : String) = "description" :=
  ⟨metaStep_precedence.1 initMetadata
      ⟨some "description", some "og:title", some "B"⟩ none (by decide),
   metaStep_precedence.2 initMetadata ⟨some "description", none, some "x"⟩
      "description" "description" (by decide) (by decide)⟩

/-- Counterexample to Claim C9 as stated: `analyze_content` rounds the
average to two decimals (`round(avg, 2)`, src/scraper.py line 260), so
with three success rows of content lengths 1, 2 and 4 it reports 2.33
instead of the exact mean 7/3. -/
theorem analyze_content_claim_false :
    ¬ (∀ rows : List Row,
        (rows = [] → (analyze_content rows).success_rate = 0
          ∧ (analyze_content rows).avg_content_length = 0)
        ∧ (rows ≠ [] → (analyze_content rows).success_rate
            = ((analyze_content rows).successful : Rat)
              / (((analyze_content rows).successful : Rat)
                + ((analyze_content rows).failed : Rat)) * 100
          ∧ (analyze_content rows).avg_content_length
              = meanSuccessContentLength rows)) := by
  intro h
  have havg := ((h rows3).2 (by decide)).2
  rw [show (analyze_content rows3).avg_content_length = 233/100 from by
      norm_num [analyze_content, rows3, round2, roundHalfEven, Int.floor_eq_iff,
        show ("a" : String).length = 1 from rfl,
        show ("bb" : String).length = 2 from rfl,
        show ("dddd" : String).length = 4 from rfl, Int.fract],
    show meanSuccessContentLength rows3 = 7/3 from by
      have hfil : rows3.filter (fun r => r.status == Status.success) = rows3 := by
        decide
      simp only [meanSuccessContentLength, hfil]
      rw [if_neg (by decide)]
      norm_num [rows3, show ("a" : String).length = 1 from rfl,
        show ("bb" : String).length = 2 from rfl,
        show ("dddd" : String).length = 4 from rfl]] at havg
  exact absurd havg (by norm_num)

/-- Claim C9 (amended): `analyze_content` is a total function over any
store state — no division error: its success and failure counts are the
status-filtered row counts with `successful + failed = total_pages =`
the number of rows; on the empty store it returns `success_rate = 0`
and `avg_content_length = 0`; otherwise `success_rate =
successful/(successful+failed) * 100`; and `avg_content_length` is the
mean character length of `content` over success rows only (0 when none
exist) *rounded to two decimal places* (Python `round`). -/
theorem analyze_content_safe (rows : List Row) :
    (analyze_content rows).successful
        = (rows.filter (fun r => r.status == Status.success)).length
    ∧ (analyze_content rows).failed
        = (rows.filter (fun r => r.status == Status.failed)).length
    ∧ (analyze_content rows).total_pages = rows.length
    ∧ (rows = [] → (analyze_content rows).success_rate = 0
        ∧ (analyze_content rows).avg_content_length = 0)
    ∧ (rows ≠ [] → (analyze_content rows).success_rate
        = ((analyze_content rows).successful : Rat)
          / (((analyze_content rows).successful : Rat)
            + ((analyze_content rows).failed : Rat)) * 100)
    ∧ (analyze_content rows).avg_content_length
        = round2 (meanSuccessContentLength rows) := by
  refine ⟨rfl, rfl, row_partition rows, ?_, ?_, ?_⟩
  · intro h
    subst h
    constructor
    · rfl
    · show round2 0 = 0
      norm_num [round2, roundHalfEven]
  · intro h
    have hpos : 0 < (rows.filter (fun r => r.status == Status.success)).length
        + (rows.filter (fun r => r.status == Status.failed)).length := by
      rw [row_partition rows]
      exact List.length_pos.mpr h
    show (if 0 < _ + _ then _ else _) = _
    rw [if_pos hpos]
    norm_cast
  · show round2 _ = round2 (meanSuccessContentLength rows)
    unfold meanSuccessContentLength
    by_cases hs : rows.filter (fun r => r.status == Status.success) = []
    · rw [if_pos hs, if_pos (by rw [hs]; rfl)]
    · rw [if_neg hs, if_neg (by simpa [List.length_eq_zero] using hs)]

/-- Witness for Claim C9's theorem: the empty store yields rate and
average 0, and the three-row store yields the stated rate formula. -/
theorem analyze_content_safe_witness :
    ((analyze_content []).success_rate = 0
      ∧ (analyze_content []).avg_content_length = 0)
    ∧ (analyze_content rows3).success_rate
        = ((analyze_content rows3).successful : Rat)
          / (((analyze_content rows3).successful : Rat)
            + ((analyze_content rows3).failed : Rat)) * 100 :=
  ⟨(analyze_content_safe []).2.2.2.1 rfl,
   (analyze_content_safe rows3).2.2.2.2.1 (by decide)⟩

end Scraper
